import Mathlib

/-!
# Verification of the search-and-display state/fetch pipeline

Shallow embedding of the two collaborating components of the repository:

* `SearchService` (src/app/services/search.service.ts, full draft in the
  related document): mutable `searchText` / `page` / `pageSize` fields, a
  `currentSearch$` BehaviorSubject, URL query-parameter persistence via
  `router.navigate` with `queryParamsHandling: merge`, and the public
  operations `newSearch`, `setPage`, `setPageSize`, `submit`, together with
  the constructor / `_initFromUrl` seeding.

* The `searchResults$` pipeline of `AppComponent`
  (src/app/app.component.ts): `currentSearch$.pipe(filter(...),
  switchMap(search => searchBooks(search)), catchError(...))`, modelled as a
  small-step machine over an event trace of commit emissions and fetch
  resolutions.

JavaScript numbers that can be `NaN` (results of `parseInt`) are modelled by
`JsNum`; JS string helpers (`trim`, `split(' ').join('+')`, `toLowerCase`,
`parseInt`) are embedded as executable functions over `List Char`.
-/

/-- A JavaScript number as it occurs in this pipeline: an integer or `NaN`
(the result of `parseInt` on a non-numeric string). -/
inductive JsNum where
  | int : Int → JsNum
  | nan : JsNum
deriving DecidableEq, Repr

/-- JS truthiness of a number: `0` and `NaN` are falsy. -/
def JsNum.truthy : JsNum → Bool
  | .int n => n ≠ 0
  | .nan => false

/-- JS stringification of a number (`NaN` prints as "NaN"),
as used by template literals and query-parameter serialization. -/
def JsNum.toStr : JsNum → String
  | .int n => toString n
  | .nan => "NaN"

/-- Whitespace characters recognised by the embedded JS string helpers. -/
def isWsChar (c : Char) : Bool := c = ' ' || c = '\t' || c = '\n' || c = '\r'

/-- Embedding of `String.prototype.trim`: drop whitespace from both ends. -/
def jsTrim (t : String) : String :=
  String.mk (((t.data.dropWhile isWsChar).reverse.dropWhile isWsChar).reverse)

/-- Numeric value of a list of decimal digit characters. -/
def digitsToNat (l : List Char) : Nat :=
  l.foldl (fun a c => a * 10 + (c.toNat - 48)) 0

/-- Embedding of `parseInt(s, 10)`: skip leading whitespace, read an optional
sign and the longest digit prefix; `NaN` when no digit is found. -/
def parseIntJs (s : String) : JsNum :=
  match s.data.dropWhile isWsChar with
  | [] => .nan
  | c :: rest =>
    let sign : Int := if c = '-' then -1 else 1
    let body := if c = '-' || c = '+' then rest else c :: rest
    let ds := body.takeWhile Char.isDigit
    if ds = [] then .nan else .int (sign * (digitsToNat ds : Int))

/-- Embedding of `text.split(' ')` (one field per space character; runs of
spaces produce empty fields, exactly as in JS). -/
def splitSpace : List Char → List (List Char)
  | [] => [[]]
  | c :: cs =>
    if c = ' ' then [] :: splitSpace cs
    else
      match splitSpace cs with
      | [] => [[c]]
      | h :: t => (c :: h) :: t

/-- Embedding of `array.join(.+.)` on the fields produced by a split. -/
def joinPlus : List (List Char) → List Char
  | [] => []
  | [w] => w
  | w :: ws => w ++ '+' :: joinPlus ws

/-- The query transformation of `AppComponent.searchBooks`:
`searchText.split(' ').join('+').toLowerCase()`. -/
def searchQuery (t : String) : String :=
  String.mk ((joinPlus (splitSpace t.data)).map Char.toLower)

/-- The committed search parameters (`CurrentSearch` in
search.service.ts). -/
structure CurrentSearch where
  searchText : String
  pageSize : JsNum
  page : JsNum
deriving DecidableEq, Repr

/-- One document of the Open Library response
(`SearchResult.docs` element in app.component.ts). -/
structure BookDoc where
  title : String
  author_name : List String
  cover_edition_key : String
deriving DecidableEq, Repr

/-- The decoded response shape (`SearchResult` in app.component.ts). -/
structure SearchResult where
  num_found : Int
  docs : List BookDoc
deriving DecidableEq, Repr

/-- The empty result substituted by the `catchError` handler. -/
def emptyResult : SearchResult := ⟨0, []⟩

/-- The request URL built by `AppComponent.searchBooks` for a committed
search. -/
def fetchUrl (c : CurrentSearch) : String :=
  "https://openlibrary.org/search.json?q=" ++ searchQuery c.searchText
    ++ "&page=" ++ c.page.toStr ++ "&limit=" ++ c.pageSize.toStr

/-- Observable state of a `SearchService` instance: the three mutable
fields, the `q` / `page` / `limit` URL query parameters (an absent key is
`none`; `router.navigate` with a `null` value removes the key, merge keeps
unrelated keys untouched), and the full emission history of the
`currentSearch$` BehaviorSubject (whose initial value is `null`). -/
structure ServiceState where
  searchText : String
  page : JsNum
  pageSize : JsNum
  urlQ : Option String
  urlPage : Option String
  urlLimit : Option String
  published : List (Option CurrentSearch)
deriving DecidableEq, Repr

namespace SearchService

/-- Embedding of `submit()`: navigate with `q: searchText || null`, `page: page || null`,
`limit: pageSize || null` (merge semantics: a null value strips the key),
then `currentSearch$.next({searchText, pageSize, page})`. -/
def submit (s : ServiceState) : ServiceState :=
  { s with
    urlQ := if s.searchText = "" then none else some s.searchText
    urlPage := if s.page.truthy then some s.page.toStr else none
    urlLimit := if s.pageSize.truthy then some s.pageSize.toStr else none
    published := s.published ++ [some ⟨s.searchText, s.pageSize, s.page⟩] }

/-- Embedding of `newSearch(searchText)`: store the text verbatim, reset the page to 1
(`resetPagination`), then `submit`. -/
def newSearch (t : String) (s : ServiceState) : ServiceState :=
  submit { s with searchText := t, page := .int 1 }

/-- Embedding of `setPage(page)`: store the page, then `submit`. -/
def setPage (p : JsNum) (s : ServiceState) : ServiceState :=
  submit { s with page := p }

/-- Embedding of `setPageSize(size)`: store the size, reset the page to 1, then
`submit`. -/
def setPageSize (z : JsNum) (s : ServiceState) : ServiceState :=
  submit { s with pageSize := z, page := .int 1 }

/-- JS `a || b` on an optional query-parameter value: an absent key
(`params.get` returns null) and an empty string are both falsy. -/
def jsOr (a : Option String) (b : String) : String :=
  match a with
  | some v => if v = "" then b else v
  | none => b

/-- Embedding of `config?.defaultPageSize || 10`: the page size installed by the
constructor before `_initFromUrl` runs (an absent config, an absent field
and a zero field all fall back to 10). -/
def configPageSize (config : Option Int) : Int :=
  match config with
  | some d => if d = 0 then 10 else d
  | none => 10

/-- Constructor plus `_initFromUrl`: `pageSize = config?.defaultPageSize ||
10`, then read `q`, `page`, `limit` from the URL query string
(`parseInt(params.get(..) || default, 10)`), store them, and `submit` when
the search text is truthy (non-empty). -/
def init (config : Option Int) (q pg lim : Option String) : ServiceState :=
  let ps0 : Int := configPageSize config
  let st := jsOr q ""
  let page := parseIntJs (jsOr pg "1")
  let pageSize := parseIntJs (jsOr lim (toString ps0))
  let s : ServiceState :=
    ⟨st, page, pageSize, q, pg, lim, [none]⟩
  if st = "" then s else submit s

end SearchService

/-- Public operations of the service after construction (as invoked by
`AppComponent.onSearchInputChange` / `onPageChange`). -/
inductive Op where
  | newSearch (t : String)
  | setPage (p : JsNum)
  | setPageSize (z : JsNum)

/-- Apply one public operation. -/
def applyOp (s : ServiceState) : Op → ServiceState
  | .newSearch t => SearchService.newSearch t s
  | .setPage p => SearchService.setPage p s
  | .setPageSize z => SearchService.setPageSize z s

/-- Run a sequence of public operations. -/
def runOps (s : ServiceState) (ops : List Op) : ServiceState :=
  ops.foldl applyOp s

/-- The filter of `searchResults$`:
`search !== null && search.searchText.trim().length > 0`. -/
def passesFilter : Option CurrentSearch → Bool
  | none => false
  | some cs => decide (0 < (jsTrim cs.searchText).length)

/-- Events driving the `searchResults$` pipeline on the single-threaded
event loop: an emission of `currentSearch$`, or the resolution of the fetch
numbered `i` (in issue order) with a decoded result or a transport/decode
error. -/
inductive Ev where
  | commit : Option CurrentSearch → Ev
  | resolve : Nat → Except Unit SearchResult → Ev

/-- State of one subscription to `searchResults$`.
`nextId` numbers fetches in issue order; `active` is the fetch the
`switchMap` is currently subscribed to (an inner observable superseded by a
newer commit, or already resolved, is unsubscribed and can no longer affect
the output); `terminated` records that an error reached the outer
`catchError`, which replaced the whole upstream with a fallback
BehaviorSubject; `fetches` lists the issued requests and `output` the
emissions of the displayed stream. -/
structure PipeState where
  nextId : Nat
  active : Option Nat
  terminated : Bool
  fetches : List CurrentSearch
  output : List SearchResult
deriving DecidableEq, Repr

/-- The pipeline state at subscription time. -/
def PipeState.initial : PipeState := ⟨0, none, false, [], []⟩

/-- One step of the `filter` / `switchMap` / `catchError` pipeline.
After `catchError` has switched to its fallback the upstream subscription is
gone, so every event is ignored. A commit that passes the filter issues one
fetch and makes it the active inner subscription (unsubscribing the previous
one). A resolution of the active fetch emits its result on success; on error
the error propagates past `switchMap` to the outer `catchError`, which emits
`{num_found: 0, docs: []}` and terminates the upstream. A resolution of a
non-active (superseded) fetch is discarded entirely. -/
def step (s : PipeState) (e : Ev) : PipeState :=
  if s.terminated then s
  else
    match e with
    | .commit c =>
      if passesFilter c then
        match c with
        | some cs =>
          { s with nextId := s.nextId + 1, active := some s.nextId,
                   fetches := s.fetches ++ [cs] }
        | none => s
      else s
    | .resolve i r =>
      if s.active = some i then
        match r with
        | .ok res => { s with active := none, output := s.output ++ [res] }
        | .error _ =>
          { s with active := none, terminated := true,
                   output := s.output ++ [emptyResult] }
      else s

/-- Run the pipeline from a given state over an event trace. -/
def runFrom (s : PipeState) (es : List Ev) : PipeState :=
  es.foldl step s

/-- Run the pipeline from subscription over an event trace. -/
def runP (es : List Ev) : PipeState :=
  runFrom PipeState.initial es

/-- The fetches issued when the pipeline consumes the emission history of a
service (no interleaved resolutions): what happens synchronously at
construction time. -/
def fetchesOf (s : ServiceState) : List CurrentSearch :=
  (runFrom PipeState.initial (s.published.map Ev.commit)).fetches

/-! ## Helper lemmas -/

theorem step_of_terminated (s : PipeState) (e : Ev) (h : s.terminated = true) :
    step s e = s := by
  simp [step, h]

theorem runFrom_of_terminated (s : PipeState) (es : List Ev)
    (h : s.terminated = true) : runFrom s es = s := by
  induction es with
  | nil => rfl
  | cons e es ih =>
    show runFrom (step s e) es = s
    rw [step_of_terminated s e h]
    exact ih

theorem runFrom_append (s : PipeState) (a b : List Ev) :
    runFrom s (a ++ b) = runFrom (runFrom s a) b :=
  List.foldl_append ..

theorem step_commit_blank (p : PipeState) (c : Option CurrentSearch)
    (h : passesFilter c = false) : step p (.commit c) = p := by
  simp [step, h]

/-! ## C1: latest-wins (switch) semantics of the displayed stream -/

/-- C1: for every pipeline state that has not been torn down by an error,
and every two filter-passing commits published in the order first, second —
with the second arriving before the first fetch resolves — the displayed
stream afterwards carries exactly the second fetch result, and the first
fetch outcome (success or failure) never reaches it, in either resolution
order. -/
theorem C1_latest_wins (s : PipeState) (c1 c2 : CurrentSearch)
    (r1 : Except Unit SearchResult) (res2 : SearchResult)
    (hterm : s.terminated = false)
    (h1 : 0 < (jsTrim c1.searchText).length)
    (h2 : 0 < (jsTrim c2.searchText).length) :
    (runFrom s [.commit (some c1), .commit (some c2),
                .resolve s.nextId r1, .resolve (s.nextId + 1) (.ok res2)]).output
      = s.output ++ [res2]
    ∧ (runFrom s [.commit (some c1), .commit (some c2),
                  .resolve (s.nextId + 1) (.ok res2), .resolve s.nextId r1]).output
      = s.output ++ [res2] := by
  constructor <;>
    simp [runFrom, step, passesFilter, hterm, h1, h2, Nat.succ_ne_self]

/-- Witness for C1 at a concrete run: two commits, then the two resolutions
in each order; the displayed stream holds only the second result. -/
theorem C1_latest_wins_witness :
    0 < (jsTrim "xyz").length ∧ 0 < (jsTrim "dune").length ∧
    ((runFrom PipeState.initial
        [.commit (some ⟨"xyz", .int 10, .int 1⟩),
         .commit (some ⟨"dune", .int 10, .int 1⟩),
         .resolve 0 (.ok ⟨7, [⟨"Xyz", ["A"], "OL0M"⟩]⟩),
         .resolve 1 (.ok ⟨1, [⟨"Dune", ["Frank Herbert"], "OL1M"⟩]⟩)]).output
      = [⟨1, [⟨"Dune", ["Frank Herbert"], "OL1M"⟩]⟩]
    ∧ (runFrom PipeState.initial
        [.commit (some ⟨"xyz", .int 10, .int 1⟩),
         .commit (some ⟨"dune", .int 10, .int 1⟩),
         .resolve 1 (.ok ⟨1, [⟨"Dune", ["Frank Herbert"], "OL1M"⟩]⟩),
         .resolve 0 (.ok ⟨7, [⟨"Xyz", ["A"], "OL0M"⟩]⟩)]).output
      = [⟨1, [⟨"Dune", ["Frank Herbert"], "OL1M"⟩]⟩]) :=
  ⟨by decide, by decide,
    C1_latest_wins PipeState.initial ⟨"xyz", .int 10, .int 1⟩
      ⟨"dune", .int 10, .int 1⟩ (.ok ⟨7, [⟨"Xyz", ["A"], "OL0M"⟩]⟩)
      ⟨1, [⟨"Dune", ["Frank Herbert"], "OL1M"⟩]⟩ rfl (by decide) (by decide)⟩

/-! ## C2: error handling of the displayed stream -/

/-- C2 counterexample: the outer placement of `catchError` (after
`switchMap`) makes the first fetch failure fatal to the upstream
subscription. Concretely: a committed search for "xyz" whose fetch fails
makes the displayed stream emit the empty result, but a later committed
search for "dune" issues no fetch at all, and its would-be result never
reaches the displayed stream — refuting the stated "stream remains usable
afterwards". -/
theorem C2_error_recovery_counterexample :
    (runP [.commit (some ⟨"xyz", .int 10, .int 1⟩),
           .resolve 0 (.error ()),
           .commit (some ⟨"dune", .int 10, .int 1⟩),
           .resolve 1 (.ok ⟨1, [⟨"Dune", ["Frank Herbert"], "OL1M"⟩]⟩)]).fetches
      = [⟨"xyz", .int 10, .int 1⟩]
    ∧ (runP [.commit (some ⟨"xyz", .int 10, .int 1⟩),
             .resolve 0 (.error ()),
             .commit (some ⟨"dune", .int 10, .int 1⟩),
             .resolve 1 (.ok ⟨1, [⟨"Dune", ["Frank Herbert"], "OL1M"⟩]⟩)]).output
      = [emptyResult] := by
  constructor <;> rfl

/-- C2 amended: when the fetch of the active committed search fails, the
displayed stream does emit `{totalFound: 0, items: []}` — but the
`catchError` sits on the outer stream, so it terminates the subscription to
the committed-search stream: from then on every event (any later commit or
resolution) leaves the pipeline unchanged — no further fetch is issued and
nothing further reaches the displayed stream. -/
theorem C2_error_terminates_stream (s : PipeState) (i : Nat)
    (hterm : s.terminated = false) (hact : s.active = some i) :
    (step s (.resolve i (.error ()))).output = s.output ++ [emptyResult]
    ∧ (step s (.resolve i (.error ()))).fetches = s.fetches
    ∧ (step s (.resolve i (.error ()))).terminated = true
    ∧ ∀ es : List Ev, runFrom (step s (.resolve i (.error ()))) es
        = step s (.resolve i (.error ())) := by
  refine ⟨?_, ?_, ?_, ?_⟩
  · simp [step, hterm, hact]
  · simp [step, hterm, hact]
  · simp [step, hterm, hact]
  · intro es
    apply runFrom_of_terminated
    simp [step, hterm, hact]

/-- Witness for the amended C2: after the failing "xyz" fetch the output is
the empty result, the pipeline is terminated, and replaying a later "dune"
commit with its successful resolution changes nothing. -/
theorem C2_error_terminates_stream_witness :
    (step (runP [.commit (some ⟨"xyz", .int 10, .int 1⟩)])
        (.resolve 0 (.error ()))).output
      = (runP [.commit (some ⟨"xyz", .int 10, .int 1⟩)]).output ++ [emptyResult]
    ∧ (step (runP [.commit (some ⟨"xyz", .int 10, .int 1⟩)])
        (.resolve 0 (.error ()))).fetches
      = (runP [.commit (some ⟨"xyz", .int 10, .int 1⟩)]).fetches
    ∧ (step (runP [.commit (some ⟨"xyz", .int 10, .int 1⟩)])
        (.resolve 0 (.error ()))).terminated = true
    ∧ runFrom (step (runP [.commit (some ⟨"xyz", .int 10, .int 1⟩)])
          (.resolve 0 (.error ())))
        [.commit (some ⟨"dune", .int 10, .int 1⟩),
         .resolve 1 (.ok ⟨1, [⟨"Dune", ["Frank Herbert"], "OL1M"⟩]⟩)]
      = step (runP [.commit (some ⟨"xyz", .int 10, .int 1⟩)])
          (.resolve 0 (.error ())) := by
  have h := C2_error_terminates_stream
    (runP [.commit (some ⟨"xyz", .int 10, .int 1⟩)]) 0 rfl rfl
  exact ⟨h.1, h.2.1, h.2.2.1, h.2.2.2 _⟩

/-! ## C3: empty / whitespace search text -/

/-- A concrete prior state: a fresh service (no URL parameters, no injected
config) after one committed search for "dune". -/
def sDune : ServiceState :=
  SearchService.newSearch "dune" (SearchService.init none none none none)

/-- C3 counterexample: after a committed "dune" search, setting the search
text to the empty string leaves `page=1` and `limit=10` in the URL (only `q`
is removed, because `1` and `10` are truthy and survive the
`value || null` serialization), and a whitespace-only text even keeps `q`
(set to the whitespace). The claimed stripping of all three keys is false. -/
theorem C3_clear_url_counterexample :
    (SearchService.newSearch "" sDune).urlPage = some "1"
    ∧ (SearchService.newSearch "" sDune).urlLimit = some "10"
    ∧ ¬((SearchService.newSearch "" sDune).urlPage = none
        ∧ (SearchService.newSearch "" sDune).urlLimit = none)
    ∧ (SearchService.newSearch "  " sDune).urlQ = some "  " := by
  refine ⟨rfl, rfl, ?_, rfl⟩
  intro h
  exact Option.noConfusion (h.1.symm.trans rfl)

/-- C3 amended: committing an empty or whitespace-only search text issues no
fetch — the published value fails the display filter, so the pipeline state
is completely unchanged (in particular no fetch and no new displayed value,
hence previously displayed results remain) — and the URL update removes `q`
exactly when the text is the empty string (a whitespace-only text is truthy
and is kept as `q`), while `page` is re-written as `1` and `limit` keeps the
current page size; `page` and `limit` are never stripped. -/
theorem C3_blank_search_behavior (s : ServiceState) (t : String)
    (h : jsTrim t = "") :
    (SearchService.newSearch t s).published
      = s.published ++ [some ⟨t, s.pageSize, .int 1⟩]
    ∧ passesFilter (some ⟨t, s.pageSize, .int 1⟩) = false
    ∧ (∀ p : PipeState, step p (.commit (some ⟨t, s.pageSize, .int 1⟩)) = p)
    ∧ (SearchService.newSearch t s).urlQ
        = (if t = "" then none else some t)
    ∧ (SearchService.newSearch t s).urlPage = some "1"
    ∧ (SearchService.newSearch t s).urlLimit
        = (if s.pageSize.truthy then some s.pageSize.toStr else none) := by
  have hf : passesFilter (some ⟨t, s.pageSize, .int 1⟩) = false := by
    simp [passesFilter, h]
  refine ⟨rfl, hf, fun p => step_commit_blank p _ hf, rfl, rfl, rfl⟩

/-- Witness for the amended C3 at the whitespace-only text " " from the
concrete "dune" state. -/
theorem C3_blank_search_behavior_witness :
    jsTrim " " = ""
    ∧ (SearchService.newSearch " " sDune).published
        = sDune.published ++ [some ⟨" ", .int 10, .int 1⟩]
    ∧ passesFilter (some ⟨" ", .int 10, .int 1⟩) = false
    ∧ step PipeState.initial (.commit (some ⟨" ", .int 10, .int 1⟩))
        = PipeState.initial
    ∧ (SearchService.newSearch " " sDune).urlQ = some " "
    ∧ (SearchService.newSearch " " sDune).urlPage = some "1"
    ∧ (SearchService.newSearch " " sDune).urlLimit = some "10" := by
  have h := C3_blank_search_behavior sDune " " (by decide)
  exact ⟨by decide, h.1, h.2.1, h.2.2.1 PipeState.initial, h.2.2.2.1,
    h.2.2.2.2.1, h.2.2.2.2.2⟩

/-! ## C4: blank values on the committed stream -/

/-- C4 counterexample: `newSearch` with the empty string publishes a
committed value whose search text is empty — `submit()` publishes
unconditionally — so the claimed invariant "no blank value is ever
published on currentSearch dollar-stream" is false. -/
theorem C4_blank_publish_counterexample :
    (SearchService.newSearch "" (SearchService.init none none none none)).published
      = [none, some ⟨"", .int 10, .int 1⟩]
    ∧ jsTrim "" = "" := by
  exact ⟨rfl, rfl⟩

/-- C4 amended: blank search texts are published on the committed stream
(every `submit` publishes, and `newSearch` submits for any text); the
blank values are instead rejected by the display filter of
`searchResults$`, so they never issue a fetch. -/
theorem C4_blank_values_published_but_filtered (s : ServiceState) (t : String)
    (h : jsTrim t = "") :
    (SearchService.newSearch t s).published
      = s.published ++ [some ⟨t, s.pageSize, .int 1⟩]
    ∧ passesFilter (some ⟨t, s.pageSize, .int 1⟩) = false
    ∧ (∀ p : PipeState,
        (step p (.commit (some ⟨t, s.pageSize, .int 1⟩))).fetches = p.fetches) := by
  have hf : passesFilter (some ⟨t, s.pageSize, .int 1⟩) = false := by
    simp [passesFilter, h]
  exact ⟨rfl, hf, fun p => by rw [step_commit_blank p _ hf]⟩

/-- Witness for the amended C4 at the empty text from a fresh service. -/
theorem C4_blank_values_published_but_filtered_witness :
    jsTrim "" = ""
    ∧ (SearchService.newSearch "" (SearchService.init none none none none)).published
        = (SearchService.init none none none none).published
          ++ [some ⟨"", .int 10, .int 1⟩]
    ∧ passesFilter (some ⟨"", .int 10, .int 1⟩) = false
    ∧ (step PipeState.initial (.commit (some ⟨"", .int 10, .int 1⟩))).fetches
        = PipeState.initial.fetches := by
  have h := C4_blank_values_published_but_filtered
    (SearchService.init none none none none) "" (by decide)
  exact ⟨by decide, h.1, h.2.1, h.2.2 PipeState.initial⟩

/-! ## C5: newSearch stores the text verbatim -/

/-- C5 counterexample: `newSearch` does not trim — committing " Dune "
stores " Dune ", not the trimmed "Dune" the claim requires. -/
theorem C5_trim_counterexample :
    (SearchService.newSearch " Dune " sDune).searchText = " Dune "
    ∧ jsTrim " Dune " = "Dune"
    ∧ (SearchService.newSearch " Dune " sDune).searchText ≠ jsTrim " Dune " := by
  refine ⟨rfl, by decide, by decide⟩

/-- C5 amended: for every input text and prior state, `newSearch` stores the
text verbatim (leading/trailing whitespace included), resets the page to 1
regardless of the prior page value, and publishes exactly one committed
value carrying that verbatim text, page 1 and the current page size. -/
theorem C5_newSearch_stores_verbatim (s : ServiceState) (t : String) :
    (SearchService.newSearch t s).searchText = t
    ∧ (SearchService.newSearch t s).page = .int 1
    ∧ (SearchService.newSearch t s).published
        = s.published ++ [some ⟨t, s.pageSize, .int 1⟩] :=
  ⟨rfl, rfl, rfl⟩

/-! ## C6: setPageSize resets the page and fetches once -/

/-- C6: for every size and every prior state with non-blank search text (and
a live pipeline), `setPageSize` stores the size, resets the page to 1,
publishes exactly one committed value, and that value makes the pipeline
issue exactly one fetch whose parameters are the current text, the new size
as limit and page 1 — with the fetch URL carrying `page=1` and
`limit=<size>`. -/
theorem C6_setPageSize_fetch (s : ServiceState) (z : JsNum) (p : PipeState)
    (hs : 0 < (jsTrim s.searchText).length) (hp : p.terminated = false) :
    (SearchService.setPageSize z s).pageSize = z
    ∧ (SearchService.setPageSize z s).page = .int 1
    ∧ (SearchService.setPageSize z s).published
        = s.published ++ [some ⟨s.searchText, z, .int 1⟩]
    ∧ (step p (.commit (some ⟨s.searchText, z, .int 1⟩))).fetches
        = p.fetches ++ [⟨s.searchText, z, .int 1⟩]
    ∧ (step p (.commit (some ⟨s.searchText, z, .int 1⟩))).output = p.output
    ∧ fetchUrl ⟨s.searchText, z, .int 1⟩
        = "https://openlibrary.org/search.json?q=" ++ searchQuery s.searchText
          ++ ("&page=1&limit=" ++ z.toStr) := by
  have h1 : ("&page=" ++ "1" : String) = "&page=1" := rfl
  have h2 : ("&page=1" ++ "&limit=" : String) = "&page=1&limit=" := rfl
  refine ⟨rfl, rfl, rfl, ?_, ?_, ?_⟩
  · simp [step, hp, passesFilter, hs]
  · simp [step, hp, passesFilter, hs]
  · show "https://openlibrary.org/search.json?q=" ++ searchQuery s.searchText
      ++ "&page=" ++ "1" ++ "&limit=" ++ z.toStr = _
    rw [String.append_assoc, String.append_assoc, String.append_assoc,
      ← String.append_assoc "&page=" "1", h1,
      ← String.append_assoc "&page=1" "&limit=", h2]

/-- Witness for C6: page size 25 from the concrete "dune" state with a fresh
pipeline produces one fetch with `page=1` and `limit=25`. -/
theorem C6_setPageSize_fetch_witness :
    0 < (jsTrim sDune.searchText).length
    ∧ PipeState.initial.terminated = false
    ∧ (SearchService.setPageSize (.int 25) sDune).pageSize = .int 25
    ∧ (SearchService.setPageSize (.int 25) sDune).page = .int 1
    ∧ (SearchService.setPageSize (.int 25) sDune).published
        = sDune.published ++ [some ⟨"dune", .int 25, .int 1⟩]
    ∧ (step PipeState.initial
          (.commit (some ⟨"dune", .int 25, .int 1⟩))).fetches
        = [⟨"dune", .int 25, .int 1⟩]
    ∧ fetchUrl ⟨"dune", .int 25, .int 1⟩
        = "https://openlibrary.org/search.json?q=dune&page=1&limit=25" := by
  have h := C6_setPageSize_fetch sDune (.int 25) PipeState.initial
    (by decide) rfl
  refine ⟨by decide, rfl, h.1, h.2.1, ?_, ?_, ?_⟩
  · exact h.2.2.1
  · exact h.2.2.2.1
  · have hu := h.2.2.2.2.2
    exact hu.trans (by decide)

/-! ## C7: the query-string transformation -/

theorem splitSpace_ne_nil (l : List Char) : splitSpace l ≠ [] := by
  cases l with
  | nil => simp [splitSpace]
  | cons c cs =>
    simp only [splitSpace]
    split
    · simp
    · split <;> simp

theorem joinPlus_cons (h : List Char) (t : List (List Char)) (ht : t ≠ []) :
    joinPlus (h :: t) = h ++ '+' :: joinPlus t := by
  cases t with
  | nil => exact absurd rfl ht
  | cons a b => rfl

/-- The composite `split(' ').join('+')` replaces every single space character by a plus
sign, one for one: runs of spaces become runs of pluses, and no other
whitespace is touched. -/
theorem joinPlus_splitSpace (l : List Char) :
    joinPlus (splitSpace l) = l.map (fun c => if c = ' ' then '+' else c) := by
  induction l with
  | nil => rfl
  | cons c cs ih =>
    by_cases hc : c = ' '
    · subst hc
      rw [show splitSpace (' ' :: cs) = [] :: splitSpace cs from by
        simp [splitSpace]]
      rw [joinPlus_cons [] _ (splitSpace_ne_nil cs)]
      simp [ih]
    · cases he : splitSpace cs with
      | nil => exact absurd he (splitSpace_ne_nil cs)
      | cons h t =>
        have h1 : splitSpace (c :: cs) = (c :: h) :: t := by
          simp [splitSpace, hc, he]
        rw [h1]
        cases t with
        | nil =>
          have hmap : h = cs.map fun x => if x = ' ' then '+' else x := by
            have h2 := ih
            rw [he] at h2
            simpa [joinPlus] using h2
          simp [joinPlus, hmap, hc]
        | cons a b =>
          have hco : joinPlus ((c :: h) :: a :: b)
              = (c :: h) ++ '+' :: joinPlus (a :: b) := rfl
          have hh : joinPlus (h :: a :: b) = h ++ '+' :: joinPlus (a :: b) :=
            rfl
          have iht : joinPlus (h :: a :: b)
              = cs.map fun x => if x = ' ' then '+' else x := by
            rw [← he]; exact ih
          rw [hh] at iht
          rw [hco]
          simp [hc, ← iht]

/-- Whitespace-boundary split of a string, used only to state the spec's
version of the query transformation. -/
def splitWs : List Char → List (List Char)
  | [] => [[]]
  | c :: cs =>
    if isWsChar c then [] :: splitWs cs
    else
      match splitWs cs with
      | [] => [[c]]
      | h :: t => (c :: h) :: t

/-- Modelled from the spec: the query is the search text lower-cased with
every run of internal whitespace collapsed to a single plus sign. Stated by
the spec's words, for comparison against `searchQuery` of the code. -/
def specQuery (t : String) : String :=
  String.mk
    ((joinPlus ((splitWs t.data).filter (fun w => w ≠ []))).map Char.toLower)

/-- C7 counterexample: for the search text "a  b" (two consecutive spaces),
the code produces the query "a++b" — one plus per space — while the spec's
collapsed-run transformation gives "a+b"; the two disagree. -/
theorem C7_collapse_counterexample :
    searchQuery "a  b" = "a++b"
    ∧ specQuery "a  b" = "a+b"
    ∧ searchQuery "a  b" ≠ specQuery "a  b" := by
  refine ⟨by decide, by decide, by decide⟩

/-- C7 amended: every filter-passing committed value makes the pipeline
issue exactly one fetch, and its query string equals the search text with
every single space character replaced by one plus sign (runs of spaces yield
runs of plus signs, other whitespace is untouched) and then lower-cased. -/
theorem C7_query_per_space (p : PipeState) (cs : CurrentSearch)
    (hp : p.terminated = false) (hs : 0 < (jsTrim cs.searchText).length) :
    (step p (.commit (some cs))).fetches = p.fetches ++ [cs]
    ∧ searchQuery cs.searchText
        = String.mk ((cs.searchText.data.map
            (fun c => if c = ' ' then '+' else c)).map Char.toLower) := by
  constructor
  · simp [step, hp, passesFilter, hs]
  · unfold searchQuery
    rw [joinPlus_splitSpace]

/-- Witness for the amended C7 at the text "A  b": one fetch, query
"a++b". -/
theorem C7_query_per_space_witness :
    PipeState.initial.terminated = false
    ∧ 0 < (jsTrim "A  b").length
    ∧ (step PipeState.initial
          (.commit (some ⟨"A  b", .int 10, .int 1⟩))).fetches
        = [⟨"A  b", .int 10, .int 1⟩]
    ∧ searchQuery "A  b"
        = String.mk ((("A  b").data.map
            (fun c => if c = ' ' then '+' else c)).map Char.toLower)
    ∧ searchQuery "A  b" = "a++b" := by
  have h := C7_query_per_space PipeState.initial ⟨"A  b", .int 10, .int 1⟩
    rfl (by decide)
  exact ⟨rfl, by decide, h.1, h.2, by decide⟩

/-! ## Digit / repr roundtrip: parseIntJs inverts toString on integers

Needed for C8: `_initFromUrl` computes
`parseInt(params.get(.limit.) || this.pageSize.toString(), 10)`, so the
default page size survives a print/parse roundtrip. -/

theorem digitChar_toNat (k : Nat) (h : k < 10) :
    (Nat.digitChar k).toNat - 48 = k := by
  interval_cases k <;> rfl

theorem digitChar_isDigit (k : Nat) (h : k < 10) :
    (Nat.digitChar k).isDigit = true := by
  interval_cases k <;> rfl

theorem toDigitsCore_append (f : Nat) : ∀ (n : Nat) (ds : List Char),
    Nat.toDigitsCore 10 f n ds = Nat.toDigitsCore 10 f n [] ++ ds := by
  induction f with
  | zero => intro n ds; rfl
  | succ f ih =>
    intro n ds
    simp only [Nat.toDigitsCore]
    by_cases h : n / 10 = 0
    · simp [h]
    · simp only [h, if_false]
      rw [ih (n / 10) [Nat.digitChar (n % 10)],
        ih (n / 10) (Nat.digitChar (n % 10) :: ds), List.append_assoc]
      rfl

theorem digitsToNat_append_one (ds : List Char) (c : Char) :
    digitsToNat (ds ++ [c]) = digitsToNat ds * 10 + (c.toNat - 48) := by
  simp [digitsToNat, List.foldl_append]

theorem toDigitsCore_val (f : Nat) : ∀ n : Nat, n < f →
    digitsToNat (Nat.toDigitsCore 10 f n []) = n := by
  induction f with
  | zero => intro n h; omega
  | succ f ih =>
    intro n h
    simp only [Nat.toDigitsCore]
    by_cases h0 : n / 10 = 0
    · simp only [h0, if_true]
      have h10 : n < 10 := by omega
      simp [digitsToNat, digitChar_toNat (n % 10) (Nat.mod_lt n (by norm_num))]
      omega
    · simp only [h0, if_false]
      rw [toDigitsCore_append, digitsToNat_append_one,
        digitChar_toNat (n % 10) (Nat.mod_lt n (by omega)),
        ih (n / 10) (by omega)]
      omega

theorem toDigitsCore_all_digits (f : Nat) : ∀ (n : Nat) (ds : List Char),
    (∀ c ∈ ds, c.isDigit = true) →
    ∀ c ∈ Nat.toDigitsCore 10 f n ds, c.isDigit = true := by
  induction f with
  | zero => intro n ds hds; exact hds
  | succ f ih =>
    intro n ds hds
    simp only [Nat.toDigitsCore]
    by_cases h0 : n / 10 = 0
    · simp only [h0, if_true]
      intro c hc
      rcases List.mem_cons.mp hc with hc | hc
      · exact hc ▸ digitChar_isDigit (n % 10) (Nat.mod_lt n (by omega))
      · exact hds c hc
    · simp only [h0, if_false]
      apply ih
      intro c hc
      rcases List.mem_cons.mp hc with hc | hc
      · exact hc ▸ digitChar_isDigit (n % 10) (Nat.mod_lt n (by omega))
      · exact hds c hc

theorem toDigitsCore_cons_ne_nil (f : Nat) : ∀ (n : Nat) (d : Char)
    (ds : List Char), Nat.toDigitsCore 10 f n (d :: ds) ≠ [] := by
  induction f with
  | zero => intro n d ds; simp [Nat.toDigitsCore]
  | succ f ih =>
    intro n d ds
    simp only [Nat.toDigitsCore]
    by_cases h0 : n / 10 = 0
    · simp [h0]
    · simp only [h0, if_false]
      exact ih (n / 10) (Nat.digitChar (n % 10)) (d :: ds)

theorem toDigits_ne_nil (n : Nat) : Nat.toDigits 10 n ≠ [] := by
  simp only [Nat.toDigits, Nat.toDigitsCore]
  by_cases h0 : n / 10 = 0
  · simp [h0]
  · simp only [h0, if_false]
    exact toDigitsCore_cons_ne_nil n (n / 10) (Nat.digitChar (n % 10)) []

theorem takeWhile_of_all {p : Char → Bool} : ∀ l : List Char,
    (∀ c ∈ l, p c = true) → l.takeWhile p = l := by
  intro l h
  induction l with
  | nil => rfl
  | cons c cs ih =>
    rw [List.takeWhile_cons, h c (by simp)]
    simp only [if_true]
    rw [ih (fun d hd => h d (List.mem_cons_of_mem c hd))]

theorem isDigit_not_ws (c : Char) (h : c.isDigit = true) : isWsChar c = false := by
  by_contra hw
  have hw2 : isWsChar c = true := by
    cases hcv : isWsChar c
    · exact absurd hcv hw
    · rfl
  simp only [isWsChar, Bool.or_eq_true, decide_eq_true_eq] at hw2
  rcases hw2 with ((h1 | h1) | h1) | h1 <;> subst h1 <;> simp [Char.isDigit] at h

theorem parseIntJs_natRepr (m : Nat) : parseIntJs (Nat.repr m) = .int m := by
  have hdata : (Nat.repr m).data = Nat.toDigits 10 m := rfl
  have hdig : ∀ c ∈ Nat.toDigits 10 m, c.isDigit = true :=
    toDigitsCore_all_digits (m + 1) m [] (by intro c hc; cases hc)
  have hne := toDigits_ne_nil m
  rcases hl : Nat.toDigits 10 m with _ | ⟨c, rest⟩
  · exact absurd hl hne
  · have hcd : c.isDigit = true := hdig c (by rw [hl]; simp)
    have hrest : ∀ d ∈ rest, d.isDigit = true := by
      intro d hd; exact hdig d (by rw [hl]; simp [hd])
    have hdrop : (Nat.repr m).data.dropWhile isWsChar = c :: rest := by
      rw [hdata, hl, List.dropWhile_cons, isDigit_not_ws c hcd]
      simp
    have hcm : (c = '-') = False := by
      simp only [eq_iff_iff, iff_false]
      intro h; subst h; simp [Char.isDigit] at hcd
    have hcp : (c = '+') = False := by
      simp only [eq_iff_iff, iff_false]
      intro h; subst h; simp [Char.isDigit] at hcd
    have htake : (c :: rest).takeWhile Char.isDigit = c :: rest := by
      apply takeWhile_of_all
      intro d hd
      rcases List.mem_cons.mp hd with h | h
      · exact h ▸ hcd
      · exact hrest d h
    have hval : digitsToNat (c :: rest) = m := by
      rw [← hl]
      exact toDigitsCore_val (m + 1) m (Nat.lt_succ_self m)
    simp only [parseIntJs, hdrop, hcm, hcp, if_false, Bool.or_self,
      Bool.or_eq_true, decide_eq_true_eq, false_or, or_self, htake]
    simp [htake, hval, hne, hcm, hcp]

example : parseIntJs (Nat.repr 0) = .int 0 := parseIntJs_natRepr 0

theorem parseIntJs_toString_int (n : Int) : parseIntJs (toString n) = .int n := by
  cases n with
  | ofNat m => exact parseIntJs_natRepr m
  | negSucc m =>
    have hdata : (toString (Int.negSucc m)).data = '-' :: Nat.toDigits 10 (m + 1) := by
      show ("-" ++ Nat.repr (m + 1)).data = _
      rw [String.data_append]
      rfl
    have hdig : ∀ c ∈ Nat.toDigits 10 (m + 1), c.isDigit = true :=
      toDigitsCore_all_digits (m + 2) (m + 1) [] (by intro c hc; cases hc)
    have hne := toDigits_ne_nil (m + 1)
    have hdrop : (toString (Int.negSucc m)).data.dropWhile isWsChar
        = '-' :: Nat.toDigits 10 (m + 1) := by
      rw [hdata, List.dropWhile_cons]
      rw [show isWsChar '-' = false from rfl]
      simp
    have htake : (Nat.toDigits 10 (m + 1)).takeWhile Char.isDigit
        = Nat.toDigits 10 (m + 1) := takeWhile_of_all _ hdig
    have hval : digitsToNat (Nat.toDigits 10 (m + 1)) = m + 1 :=
      toDigitsCore_val (m + 2) (m + 1) (Nat.lt_succ_self (m + 1))
    simp only [parseIntJs, hdrop]
    simp [htake, hval, hne, Int.negSucc_eq]

/-! ## C8: URL-seeded initialization -/

/-- C8: initialization reads `q`, `page`, `limit` from the URL with defaults
page 1 and the configured default page size (itself defaulting to 10, and
surviving the `toString` / `parseInt` roundtrip of the code); a present,
non-blank `q` produces exactly one synchronous commit carrying the parsed
parameters; the concrete URL `?q=hobbit&page=2&limit=5` commits
`{searchText: "hobbit", page: 2, pageSize: 5}` and issues exactly one fetch
with that query; an absent `q` produces no commit and no fetch. -/
theorem C8_init_from_url (cfg : Option Int) (q : String) (pp ll : Option String)
    (hq : 0 < (jsTrim q).length) :
    (SearchService.init cfg (some q) pp ll).published
      = [none, some ⟨q,
          parseIntJs (SearchService.jsOr ll
            (toString (SearchService.configPageSize cfg))),
          parseIntJs (SearchService.jsOr pp "1")⟩]
    ∧ parseIntJs (SearchService.jsOr none "1") = .int 1
    ∧ parseIntJs (SearchService.jsOr none
          (toString (SearchService.configPageSize cfg)))
        = .int (SearchService.configPageSize cfg)
    ∧ SearchService.configPageSize none = 10
    ∧ (SearchService.init none (some "hobbit") (some "2") (some "5")).published
        = [none, some ⟨"hobbit", .int 5, .int 2⟩]
    ∧ fetchesOf (SearchService.init none (some "hobbit") (some "2") (some "5"))
        = [⟨"hobbit", .int 5, .int 2⟩]
    ∧ fetchUrl ⟨"hobbit", .int 5, .int 2⟩
        = "https://openlibrary.org/search.json?q=hobbit&page=2&limit=5"
    ∧ (SearchService.init cfg none pp ll).published = [none]
    ∧ fetchesOf (SearchService.init cfg none pp ll) = [] := by
  have hq0 : q ≠ "" := by
    intro h
    subst h
    exact absurd hq (by decide)
  refine ⟨?_, rfl, parseIntJs_toString_int _, rfl, by decide, by decide,
    by decide, rfl, rfl⟩
  simp [SearchService.init, SearchService.jsOr, SearchService.submit, hq0]

/-- Witness for C8 at the URL `?q=hobbit&page=2&limit=5` (and the same URL
without `q`). -/
theorem C8_init_from_url_witness :
    0 < (jsTrim "hobbit").length
    ∧ (SearchService.init none (some "hobbit") (some "2") (some "5")).published
        = [none, some ⟨"hobbit", .int 5, .int 2⟩]
    ∧ fetchesOf (SearchService.init none (some "hobbit") (some "2") (some "5"))
        = [⟨"hobbit", .int 5, .int 2⟩]
    ∧ fetchUrl ⟨"hobbit", .int 5, .int 2⟩
        = "https://openlibrary.org/search.json?q=hobbit&page=2&limit=5"
    ∧ (SearchService.init none none (some "2") (some "5")).published = [none]
    ∧ fetchesOf (SearchService.init none none (some "2") (some "5")) = [] := by
  have h := C8_init_from_url none "hobbit" (some "2") (some "5") (by decide)
  exact ⟨by decide, h.2.2.2.2.1, h.2.2.2.2.2.1, h.2.2.2.2.2.2.1,
    h.2.2.2.2.2.2.2.1, h.2.2.2.2.2.2.2.2⟩

/-! ## C9: the page / pageSize invariant of published values -/

/-- C9 counterexample: the URL `?q=x&page=0` seeds the service with page 0
and the construction-time commit publishes it — no operation in the pipeline
enforces page being at least 1, so the claimed invariant is false. -/
theorem C9_page_invariant_counterexample :
    (SearchService.init none (some "x") (some "0") none).published
      = [none, some ⟨"x", .int 10, .int 0⟩]
    ∧ ¬(1 ≤ (0 : Int)) := by
  exact ⟨rfl, by decide⟩

/-- The number is an integer that is at least one. -/
def JsNum.ge1 : JsNum → Bool
  | .int n => decide (1 ≤ n)
  | .nan => false

/-- The operation only carries page / size arguments that are integers at
least one (the precondition the spec places on callers). -/
def OpOk : Op → Prop
  | .newSearch _ => True
  | .setPage p => p.ge1 = true
  | .setPageSize z => z.ge1 = true

/-- Every committed value in the emission history has integer page and
pageSize at least one. -/
def PubOk (pubs : List (Option CurrentSearch)) : Prop :=
  ∀ c ∈ pubs, ∀ cs : CurrentSearch, c = some cs →
    cs.page.ge1 = true ∧ cs.pageSize.ge1 = true

/-- Inductive invariant: current fields and all published values are
integers at least one. -/
def StOk (s : ServiceState) : Prop :=
  s.page.ge1 = true ∧ s.pageSize.ge1 = true ∧ PubOk s.published

theorem PubOk_append (pubs : List (Option CurrentSearch))
    (cs : CurrentSearch) (h : PubOk pubs) (hp : cs.page.ge1 = true)
    (hz : cs.pageSize.ge1 = true) : PubOk (pubs ++ [some cs]) := by
  intro c hc cs2 hcs
  rcases List.mem_append.mp hc with hm | hm
  · exact h c hm cs2 hcs
  · have : c = some cs := by simpa using hm
    rw [this] at hcs
    cases Option.some.inj hcs
    exact ⟨hp, hz⟩

theorem submit_StOk (s : ServiceState) (h : StOk s) :
    StOk (SearchService.submit s) :=
  ⟨h.1, h.2.1, PubOk_append s.published _ h.2.2 h.1 h.2.1⟩

theorem applyOp_StOk (s : ServiceState) (op : Op) (hop : OpOk op)
    (h : StOk s) : StOk (applyOp s op) := by
  cases op with
  | newSearch t =>
    exact submit_StOk _ ⟨rfl, h.2.1, h.2.2⟩
  | setPage p =>
    exact submit_StOk _ ⟨hop, h.2.1, h.2.2⟩
  | setPageSize z =>
    exact submit_StOk _ ⟨rfl, hop, h.2.2⟩

theorem runOps_StOk (ops : List Op) : ∀ s : ServiceState,
    (∀ op ∈ ops, OpOk op) → StOk s → StOk (runOps s ops) := by
  induction ops with
  | nil => intro s _ h; exact h
  | cons op ops ih =>
    intro s hops h
    exact ih (applyOp s op)
      (fun o ho => hops o (List.mem_cons_of_mem op ho))
      (applyOp_StOk s op (hops op (List.mem_cons_self op ops)) h)

theorem init_StOk (cfg : Option Int) (q pp ll : Option String)
    (hpg : (parseIntJs (SearchService.jsOr pp "1")).ge1 = true)
    (hlim : (parseIntJs (SearchService.jsOr ll
        (toString (SearchService.configPageSize cfg)))).ge1 = true) :
    StOk (SearchService.init cfg q pp ll) := by
  unfold SearchService.init
  set s0 : ServiceState :=
    ⟨SearchService.jsOr q "", parseIntJs (SearchService.jsOr pp "1"),
      parseIntJs (SearchService.jsOr ll
        (toString (SearchService.configPageSize cfg))),
      q, pp, ll, [none]⟩ with hs0
  have h0 : StOk s0 := by
    refine ⟨hpg, hlim, ?_⟩
    intro c hc cs hcs
    simp [hs0] at hc
    rw [hc] at hcs
    cases hcs
  by_cases he : SearchService.jsOr q "" = ""
  · simpa [he] using h0
  · simpa [he] using submit_StOk s0 h0

/-- C9 amended: the code performs no validation, so the invariant holds only
under the spec's caller preconditions: when the URL `page` and `limit`
parameters parse to integers at least 1 (as their defaults do) and every
`setPage` / `setPageSize` argument is an integer at least 1, every committed
value published on the stream — from construction through any sequence of
public operations — has integer page and pageSize at least 1. -/
theorem C9_page_invariant_conditional (cfg : Option Int)
    (q pp ll : Option String) (ops : List Op)
    (hpg : (parseIntJs (SearchService.jsOr pp "1")).ge1 = true)
    (hlim : (parseIntJs (SearchService.jsOr ll
        (toString (SearchService.configPageSize cfg)))).ge1 = true)
    (hops : ∀ op ∈ ops, OpOk op) :
    ∀ c ∈ (runOps (SearchService.init cfg q pp ll) ops).published,
      ∀ cs : CurrentSearch, c = some cs →
        cs.page.ge1 = true ∧ cs.pageSize.ge1 = true :=
  (runOps_StOk ops (SearchService.init cfg q pp ll) hops
    (init_StOk cfg q pp ll hpg hlim)).2.2

/-- Witness for the amended C9: seed from `?q=x&page=2`, then set page 3,
page size 25 and a new search; the final committed value has page 1 and
page size 25, both at least 1. -/
theorem C9_page_invariant_conditional_witness :
    (parseIntJs (SearchService.jsOr (some "2") "1")).ge1 = true
    ∧ (parseIntJs (SearchService.jsOr none
        (toString (SearchService.configPageSize none)))).ge1 = true
    ∧ (∀ op ∈ ([.setPage (.int 3), .setPageSize (.int 25),
          .newSearch "y"] : List Op), OpOk op)
    ∧ JsNum.ge1 (.int 1) = true ∧ JsNum.ge1 (.int 25) = true := by
  refine ⟨by decide, by decide, ?_, ?_⟩
  · intro op hop
    rcases List.mem_cons.mp hop with h | hop
    · rw [h]; exact (by decide : JsNum.ge1 (.int 3) = true)
    rcases List.mem_cons.mp hop with h | hop
    · rw [h]; exact (by decide : JsNum.ge1 (.int 25) = true)
    rcases List.mem_cons.mp hop with h | hop
    · rw [h]; trivial
    · cases hop
  · exact C9_page_invariant_conditional none (some "x") (some "2") none
      [.setPage (.int 3), .setPageSize (.int 25), .newSearch "y"]
      (by decide) (by decide)
      (by
        intro op hop
        rcases List.mem_cons.mp hop with h | hop
        · rw [h]; exact (by decide : JsNum.ge1 (.int 3) = true)
        rcases List.mem_cons.mp hop with h | hop
        · rw [h]; exact (by decide : JsNum.ge1 (.int 25) = true)
        rcases List.mem_cons.mp hop with h | hop
        · rw [h]; trivial
        · cases hop)
      (some ⟨"y", .int 25, .int 1⟩) (by decide) ⟨"y", .int 25, .int 1⟩ rfl

/-! ## C10: NaN propagation and absence of validation -/

/-- C10: a non-numeric URL `page` parameter is parsed by unguarded
`parseInt`, stored and published as NaN, and the fetch URL embeds
`page=NaN`; and no public operation validates, clamps or rejects page /
pageSize — `setPage` and `setPageSize` store and publish their arguments
verbatim, whatever they are. -/
theorem C10_nan_propagation :
    (∀ (s : ServiceState) (p : JsNum),
      (SearchService.setPage p s).page = p
      ∧ (SearchService.setPage p s).published
          = s.published ++ [some ⟨s.searchText, s.pageSize, p⟩])
    ∧ (∀ (s : ServiceState) (z : JsNum),
      (SearchService.setPageSize z s).pageSize = z
      ∧ (SearchService.setPageSize z s).published
          = s.published ++ [some ⟨s.searchText, z, .int 1⟩])
    ∧ parseIntJs "abc" = .nan
    ∧ (SearchService.init none (some "x") (some "abc") none).page = .nan
    ∧ (SearchService.init none (some "x") (some "abc") none).published
        = [none, some ⟨"x", .int 10, .nan⟩]
    ∧ fetchesOf (SearchService.init none (some "x") (some "abc") none)
        = [⟨"x", .int 10, .nan⟩]
    ∧ fetchUrl ⟨"x", .int 10, .nan⟩
        = "https://openlibrary.org/search.json?q=x&page=NaN&limit=10" := by
  exact ⟨fun s p => ⟨rfl, rfl⟩, fun s z => ⟨rfl, rfl⟩, rfl, by decide,
    by decide, by decide, by decide⟩
